import Mathlib

/-!
# Verification of the generic version-bump script

A shallow embedding of `src/workflows/generic_bump_version.py`.

The script reads a version string (`"1.0.0"` or `"1.0.0+1"`), bumps one
field according to a requested bump kind, and serializes the result.  We
model strings as `List Char` over the ASCII fragment that the version
domain uses, and we embed the Python string primitives the script relies
on (`str.split` with a one-character separator, `str.find`, `int(...)`
conversion, f-string formatting of integers) as executable Lean
functions.  Python integers are unbounded, so they are modelled as `Int`.
A Python expression that can raise (`IndexError` from an out-of-range
subscript, `ValueError` from tuple unpacking or `int(...)`) is modelled
in `Option`, with `none` for the raised exception.
-/

namespace BumpVersion

/-- The ASCII decimal digit characters, exactly the characters `int(...)`
accepts as digits in base 10 (we model the ASCII fragment of Python,
which is the alphabet of version strings). -/
def isDigitC (c : Char) : Bool :=
  c = '0' || c = '1' || c = '2' || c = '3' || c = '4' ||
  c = '5' || c = '6' || c = '7' || c = '8' || c = '9'

/-- Numeric value of an ASCII digit character. -/
def digitVal (c : Char) : Nat := c.toNat - 48

/-- The characters Python's `int(...)` strips from both ends of its
argument before parsing (ASCII whitespace). -/
def isPySpace (c : Char) : Bool :=
  c = ' ' || c = '\t' || c = '\n' || c = '\x0d' || c = '\x0b' || c = '\x0c'

/-- Strip leading and trailing ASCII whitespace, as `int(...)` does. -/
def stripWs (s : List Char) : List Char :=
  ((s.dropWhile isPySpace).reverse.dropWhile isPySpace).reverse

/-- Continuation of `digitpart`: consume digits, allowing a single
underscore between two digits (Python's grouping rule for integer
literals accepted by `int(...)`), accumulating the value. -/
def digitpartAux (acc : Nat) : List Char → Option Nat
  | [] => some acc
  | c :: rest =>
    if isDigitC c then digitpartAux (10 * acc + digitVal c) rest
    else if c = '_' then
      match rest with
      | [] => none
      | d :: rest2 =>
        if isDigitC d then digitpartAux (10 * acc + digitVal d) rest2
        else none
    else none

/-- Python's `digitpart` grammar for `int(...)` in base 10: a nonempty
run of digits with optional single underscores between digits. -/
def digitpart : List Char → Option Nat
  | [] => none
  | c :: rest => if isDigitC c then digitpartAux (digitVal c) rest else none

/-- Python's `int(text)` conversion (base 10, ASCII fragment): strip
surrounding whitespace, allow one optional sign, then a digitpart.
`none` models the `ValueError` Python raises on malformed input. -/
def pyInt (s : List Char) : Option Int :=
  match stripWs s with
  | [] => none
  | c :: rest =>
    if c = '+' then (digitpart rest).map (fun n => (n : Int))
    else if c = '-' then (digitpart rest).map (fun n => -(n : Int))
    else (digitpart (c :: rest)).map (fun n => (n : Int))

/-- Python's `str.split(sep)` for a one-character separator: splits on
every occurrence; `"".split(sep) == [""]`. -/
def pySplit (sep : Char) : List Char → List (List Char)
  | [] => [[]]
  | c :: rest =>
    match pySplit sep rest with
    | [] => [[]]
    | h :: t => if c = sep then [] :: h :: t else (c :: h) :: t

/-- Python's `str.find(ch)` for a one-character needle: index of the
first occurrence, or `-1` when absent. -/
def pyFind (ch : Char) : List Char → Int
  | [] => -1
  | c :: rest =>
    if c = ch then 0
    else
      let r := pyFind ch rest
      if r < 0 then -1 else r + 1

/-- Decimal digit character, as produced by Python's `str(int)`
formatting (used by the script's f-strings). -/
def pyDigitChar (n : Nat) : Char :=
  match n with
  | 0 => '0' | 1 => '1' | 2 => '2' | 3 => '3' | 4 => '4'
  | 5 => '5' | 6 => '6' | 7 => '7' | 8 => '8' | _ => '9'

/-- Decimal representation of a natural number, as produced by Python's
`str` on a non-negative int: most significant digit first, no sign, no
leading zeros (except `"0"` itself). -/
def pyNatRepr (n : Nat) : List Char :=
  if _h : n < 10 then [pyDigitChar n]
  else pyNatRepr (n / 10) ++ [pyDigitChar (n % 10)]
  decreasing_by exact Nat.div_lt_self (by omega) (by omega)

/-- Python's `str(int)`: a minus sign followed by the digits for a
negative value, just the digits otherwise.  This is what the script's
f-strings `f"{major}.{minor}.{patch}"` interpolate for each field. -/
def pyIntRepr (i : Int) : List Char :=
  if i < 0 then '-' :: pyNatRepr (-i).toNat else pyNatRepr i.toNat

/-- The `VersionType` enum of the script: the four accepted bump kinds. -/
inductive VersionType
  | major
  | minor
  | patch
  | build
  deriving DecidableEq, Repr

/-- `GenericVersion.set_bump_type`: accepts exactly the four enum value
strings `"major"`, `"minor"`, `"patch"`, `"build"` (membership in
`VersionType._value2member_map_`) and selects the corresponding enum
member; `none` models the `ValueError` raised for any other string. -/
def setBumpType (s : List Char) : Option VersionType :=
  if s = ("major".data) then some VersionType.major
  else if s = ("minor".data) then some VersionType.minor
  else if s = ("patch".data) then some VersionType.patch
  else if s = ("build".data) then some VersionType.build
  else none

/-- A parsed version value: the script handles versions without a build
counter (`1.0.0`) and with one (`1.0.0+1`). -/
inductive Version
  | unbuilt (major minor patch : Int)
  | built (major minor patch build : Int)
  deriving DecidableEq, Repr

/-- Whether a version carries a build counter. -/
def Version.isBuilt : Version → Bool
  | .unbuilt _ _ _ => false
  | .built _ _ _ _ => true

/-- The parsing stage of the script, lines 76–94 and 122–126: dispatch on
`current_version.find('+') > 0`; on the build path read
`split("+")[1]` (IndexError if absent) and unpack `split("+")[0].split(".")`
into exactly three names (ValueError otherwise), then convert each field
with `int(...)`; on the no-build path unpack `split(".")` into exactly
three names and convert.  `none` models any raised exception. -/
def parseVersion (cur : List Char) : Option Version :=
  if pyFind '+' cur > 0 then
    match (pySplit '+' cur).get? 1 with
    | none => none
    | some buildStr =>
      match pySplit '.' ((pySplit '+' cur).getD 0 []) with
      | [majorStr, minorStr, patchStr] =>
        match pyInt majorStr, pyInt minorStr, pyInt patchStr, pyInt buildStr with
        | some major, some minor, some patch, some build =>
          some (Version.built major minor patch build)
        | _, _, _, _ => none
      | _ => none
  else
    match pySplit '.' cur with
    | [majorStr, minorStr, patchStr] =>
      match pyInt majorStr, pyInt minorStr, pyInt patchStr with
      | some major, some minor, some patch =>
        some (Version.unbuilt major minor patch)
      | _, _, _ => none
    | _ => none

/-- The `match self.bump_type` statement of
`_get_next_version_with_build` (lines 96–110): every case mutates the
fields as written; all four enum members are covered. -/
def applyBumpWith (bt : VersionType) (major minor patch build : Int) :
    Int × Int × Int × Int :=
  match bt with
  | .build => (major, minor, patch, build + 1)
  | .patch => (major, minor, patch + 1, 1)
  | .minor => (major, minor + 1, 0, 1)
  | .major => (major + 1, 0, 0, 1)

/-- The `match self.bump_type` statement of
`_get_next_version_without_build` (lines 128–137): only `PATCH`, `MINOR`
and `MAJOR` have cases; a `BUILD` bump matches no case, so the Python
`match` falls through and every field is left unchanged. -/
def applyBumpWithout (bt : VersionType) (major minor patch : Int) :
    Int × Int × Int :=
  match bt with
  | .patch => (major, minor, patch + 1)
  | .minor => (major, minor + 1, 0)
  | .major => (major + 1, 0, 0)
  | .build => (major, minor, patch)

/-- The bump transformation per version shape: the build-path `match` for
a built version, the no-build-path `match` for an unbuilt one. -/
def bumpVersion (v : Version) (bt : VersionType) : Version :=
  match v with
  | .unbuilt major minor patch =>
    match applyBumpWithout bt major minor patch with
    | (major2, minor2, patch2) => Version.unbuilt major2 minor2 patch2
  | .built major minor patch build =>
    match applyBumpWith bt major minor patch build with
    | (major2, minor2, patch2, build2) =>
      Version.built major2 minor2 patch2 build2

/-- The serialization f-strings of the script:
`f"{major}.{minor}.{patch}"` on the no-build path (line 139) and
`f"{major}.{minor}.{patch}+{build}"` on the build path (line 112). -/
def formatVersion : Version → List Char
  | .unbuilt major minor patch =>
    pyIntRepr major ++ '.' :: pyIntRepr minor ++ '.' :: pyIntRepr patch
  | .built major minor patch build =>
    pyIntRepr major ++ '.' :: pyIntRepr minor ++ '.' :: pyIntRepr patch ++
      '+' :: pyIntRepr build

/-- `GenericVersion.get_next_version` on a current-version string and a
set bump type: the dispatch on `find('+') > 0` chooses the parsing and
formatting shape (folded into `parseVersion`/`formatVersion`), the
selected `match` statement bumps the fields, and the matching f-string
serializes the result.  `none` models a raised exception. -/
def getNextVersion (cur : List Char) (bt : VersionType) : Option (List Char) :=
  (parseVersion cur).map (fun v => formatVersion (bumpVersion v bt))

/-- Modelled from the spec: a valid Version value — all numeric components
non-negative, and the build counter (when present) positive.  This is the
domain over which the spec states its round-trip law; it is not a function
of the script itself. -/
def validVersion : Version → Bool
  | .unbuilt major minor patch => 0 ≤ major && 0 ≤ minor && 0 ≤ patch
  | .built major minor patch build => 0 ≤ major && 0 ≤ minor && 0 ≤ patch && 0 < build

/-- The conditions under which the script's parsing stage raises, stated
in the spec's vocabulary (field counts and per-field integer conversion)
rather than by the script's control flow: on the build path (dispatch
condition true) the version part must dot-split into exactly three
fields, every field and the second plus-segment must convert with
`int(...)`; on the other path the whole string must dot-split into three
convertible fields. -/
def parseRejects (s : List Char) : Bool :=
  if pyFind '+' s > 0 then
    let fields := pySplit '.' ((pySplit '+' s).getD 0 [])
    fields.length != 3 || fields.any (fun f => (pyInt f).isNone) ||
      (pyInt ((pySplit '+' s).getD 1 [])).isNone
  else
    let fields := pySplit '.' s
    fields.length != 3 || fields.any (fun f => (pyInt f).isNone)

/-- Lexicographic order on the component tuples of two versions of the
same shape, `(major, minor, patch)` resp. `(major, minor, patch, build)`. -/
def verLexLE : Version → Version → Bool
  | .unbuilt a b c, .unbuilt a2 b2 c2 =>
    a < a2 || (a = a2 && (b < b2 || (b = b2 && c ≤ c2)))
  | .built a b c d, .built a2 b2 c2 d2 =>
    a < a2 || (a = a2 && (b < b2 || (b = b2 && (c < c2 || (c = c2 && d ≤ d2)))))
  | _, _ => false

/-- Some component of the second version strictly exceeds the matching
component of the first (same-shape comparison). -/
def verStrictSome : Version → Version → Bool
  | .unbuilt a b c, .unbuilt a2 b2 c2 => a < a2 || b < b2 || c < c2
  | .built a b c d, .built a2 b2 c2 d2 => a < a2 || b < b2 || c < c2 || d < d2
  | _, _ => false

/-! ## Character-class lemmas -/

theorem isDigitC_pyDigitChar (k : Nat) : isDigitC (pyDigitChar k) = true := by
  unfold pyDigitChar
  split <;> decide

theorem digitVal_pyDigitChar (k : Nat) (h : k < 10) : digitVal (pyDigitChar k) = k := by
  interval_cases k <;> decide

theorem digit_not_special (c : Char) (h : isDigitC c = true) :
    c ≠ '.' ∧ c ≠ '+' ∧ c ≠ '-' ∧ isPySpace c = false := by
  simp only [isDigitC, Bool.or_eq_true, decide_eq_true_eq] at h
  rcases h with (((((((((rfl | rfl) | rfl) | rfl) | rfl) | rfl) | rfl) | rfl) | rfl) | rfl) <;>
    exact ⟨by decide, by decide, by decide, by decide⟩

/-! ## Decimal representation lemmas -/

theorem pyNatRepr_lt_ten (n : Nat) (h : n < 10) : pyNatRepr n = [pyDigitChar n] := by
  rw [pyNatRepr]
  simp [h]

theorem pyNatRepr_ge_ten (n : Nat) (h : ¬ n < 10) :
    pyNatRepr n = pyNatRepr (n / 10) ++ [pyDigitChar (n % 10)] := by
  rw [pyNatRepr]
  simp [h]

theorem pyNatRepr_ne_nil (n : Nat) : pyNatRepr n ≠ [] := by
  by_cases h : n < 10
  · rw [pyNatRepr_lt_ten n h]
    simp
  · rw [pyNatRepr_ge_ten n h]
    simp

theorem pyNatRepr_digits (n : Nat) : ∀ c ∈ pyNatRepr n, isDigitC c = true := by
  induction n using Nat.strong_induction_on with
  | _ n ih =>
    by_cases h : n < 10
    · rw [pyNatRepr_lt_ten n h]
      intro c hc
      rw [List.mem_singleton] at hc
      subst hc
      exact isDigitC_pyDigitChar n
    · rw [pyNatRepr_ge_ten n h]
      intro c hc
      rcases List.mem_append.1 hc with h1 | h2
      · exact ih (n / 10) (Nat.div_lt_self (by omega) (by omega)) c h1
      · rw [List.mem_singleton] at h2
        subst h2
        exact isDigitC_pyDigitChar _

theorem foldl_pyNatRepr (n : Nat) : ∀ acc : Nat,
    (pyNatRepr n).foldl (fun a c => 10 * a + digitVal c) acc =
      acc * 10 ^ (pyNatRepr n).length + n := by
  induction n using Nat.strong_induction_on with
  | _ n ih =>
    intro acc
    by_cases h : n < 10
    · rw [pyNatRepr_lt_ten n h]
      show 10 * acc + digitVal (pyDigitChar n) = acc * 10 ^ ([pyDigitChar n]).length + n
      rw [digitVal_pyDigitChar n h, List.length_singleton, pow_one]
      omega
    · rw [pyNatRepr_ge_ten n h]
      rw [List.foldl_append]
      rw [ih (n / 10) (Nat.div_lt_self (by omega) (by omega)) acc]
      show 10 * (acc * 10 ^ (pyNatRepr (n / 10)).length + n / 10) + digitVal (pyDigitChar (n % 10)) =
        acc * 10 ^ (pyNatRepr (n / 10) ++ [pyDigitChar (n % 10)]).length + n
      rw [digitVal_pyDigitChar (n % 10) (by omega), List.length_append, List.length_singleton,
        pow_succ, ← mul_assoc]
      generalize acc * 10 ^ (pyNatRepr (n / 10)).length = M
      omega

/-! ## Integer-conversion lemmas -/

theorem dropWhile_eq_self_of (p : Char → Bool) (l : List Char)
    (h : ∀ c ∈ l, p c = false) : l.dropWhile p = l := by
  cases l with
  | nil => rfl
  | cons c rest =>
    rw [List.dropWhile_cons, h c (List.mem_cons_self c rest)]
    rw [if_neg Bool.false_ne_true]

theorem stripWs_eq_self (l : List Char) (h : ∀ c ∈ l, isPySpace c = false) :
    stripWs l = l := by
  unfold stripWs
  rw [dropWhile_eq_self_of isPySpace l h]
  rw [dropWhile_eq_self_of isPySpace l.reverse (fun c hc => h c (List.mem_reverse.1 hc))]
  exact List.reverse_reverse l

theorem digitpartAux_digits (l : List Char) : ∀ acc : Nat,
    (∀ c ∈ l, isDigitC c = true) →
    digitpartAux acc l = some (l.foldl (fun a c => 10 * a + digitVal c) acc) := by
  induction l with
  | nil => intro acc _; rfl
  | cons c rest ih =>
    intro acc h
    have hc : isDigitC c = true := h c (List.mem_cons_self c rest)
    rw [digitpartAux.eq_def]
    simp only [hc, if_true]
    rw [ih (10 * acc + digitVal c) (fun d hd => h d (List.mem_cons_of_mem c hd))]
    rfl

theorem digitpart_digits (l : List Char) (hne : l ≠ [])
    (h : ∀ c ∈ l, isDigitC c = true) :
    digitpart l = some (l.foldl (fun a c => 10 * a + digitVal c) 0) := by
  cases l with
  | nil => exact absurd rfl hne
  | cons c rest =>
    have hc : isDigitC c = true := h c (List.mem_cons_self c rest)
    rw [digitpart, if_pos hc]
    rw [digitpartAux_digits rest (digitVal c) (fun d hd => h d (List.mem_cons_of_mem c hd))]
    simp [List.foldl]

theorem digitpart_pyNatRepr (n : Nat) : digitpart (pyNatRepr n) = some n := by
  rw [digitpart_digits (pyNatRepr n) (pyNatRepr_ne_nil n) (pyNatRepr_digits n)]
  rw [foldl_pyNatRepr n 0]
  simp

theorem pyInt_pyNatRepr (n : Nat) : pyInt (pyNatRepr n) = some (n : Int) := by
  have hd := pyNatRepr_digits n
  have hstrip : stripWs (pyNatRepr n) = pyNatRepr n :=
    stripWs_eq_self _ (fun c hc => (digit_not_special c (hd c hc)).2.2.2)
  cases hrepr : pyNatRepr n with
  | nil => exact absurd hrepr (pyNatRepr_ne_nil n)
  | cons c rest =>
    have hc : isDigitC c = true := hd c (hrepr ▸ List.mem_cons_self c rest)
    have hstrip2 : stripWs (c :: rest) = c :: rest := hrepr ▸ hstrip
    simp only [pyInt, hstrip2]
    rw [if_neg (digit_not_special c hc).2.1, if_neg (digit_not_special c hc).2.2.1]
    rw [← hrepr, digitpart_pyNatRepr n]
    rfl

theorem pyIntRepr_nonneg (i : Int) (h : 0 ≤ i) : pyIntRepr i = pyNatRepr i.toNat := by
  unfold pyIntRepr
  rw [if_neg (not_lt.2 h)]

theorem pyInt_pyIntRepr (i : Int) (h : 0 ≤ i) : pyInt (pyIntRepr i) = some i := by
  rw [pyIntRepr_nonneg i h, pyInt_pyNatRepr]
  rw [Int.toNat_of_nonneg h]

theorem pyIntRepr_mem (i : Int) : ∀ c ∈ pyIntRepr i, c = '-' ∨ isDigitC c = true := by
  unfold pyIntRepr
  by_cases h : i < 0
  · rw [if_pos h]
    intro c hc
    rcases List.mem_cons.1 hc with h1 | h2
    · exact Or.inl h1
    · exact Or.inr (pyNatRepr_digits _ c h2)
  · rw [if_neg h]
    intro c hc
    exact Or.inr (pyNatRepr_digits _ c hc)

theorem pyIntRepr_not_dot (i : Int) : ∀ c ∈ pyIntRepr i, c ≠ '.' := by
  intro c hc
  rcases pyIntRepr_mem i c hc with rfl | h
  · decide
  · exact (digit_not_special c h).1

theorem pyIntRepr_not_plus (i : Int) : ∀ c ∈ pyIntRepr i, c ≠ '+' := by
  intro c hc
  rcases pyIntRepr_mem i c hc with rfl | h
  · decide
  · exact (digit_not_special c h).2.1

theorem pyIntRepr_ne_nil (i : Int) : pyIntRepr i ≠ [] := by
  unfold pyIntRepr
  by_cases h : i < 0
  · rw [if_pos h]
    simp
  · rw [if_neg h]
    exact pyNatRepr_ne_nil _

/-! ## Splitting and searching lemmas -/

theorem pySplit_ne_nil (sep : Char) (s : List Char) : pySplit sep s ≠ [] := by
  cases s with
  | nil => simp [pySplit]
  | cons c rest =>
    rw [pySplit]
    cases pySplit sep rest with
    | nil => simp
    | cons h t =>
      by_cases hc : c = sep <;> simp [hc]

theorem pySplit_no_sep (sep : Char) (s : List Char) (h : ∀ c ∈ s, c ≠ sep) :
    pySplit sep s = [s] := by
  induction s with
  | nil => rfl
  | cons c rest ih =>
    rw [pySplit, ih (fun d hd => h d (List.mem_cons_of_mem c hd))]
    simp [h c (List.mem_cons_self c rest)]

theorem pySplit_append (sep : Char) (x r : List Char) (h : ∀ c ∈ x, c ≠ sep) :
    pySplit sep (x ++ sep :: r) = x :: pySplit sep r := by
  induction x with
  | nil =>
    rw [List.nil_append, pySplit]
    cases hr : pySplit sep r with
    | nil => exact absurd hr (pySplit_ne_nil sep r)
    | cons hh tt => simp
  | cons c x2 ih =>
    rw [List.cons_append, pySplit]
    rw [ih (fun d hd => h d (List.mem_cons_of_mem c hd))]
    simp [h c (List.mem_cons_self c x2)]

theorem pyFind_not_mem (ch : Char) (s : List Char) (h : ch ∉ s) :
    pyFind ch s = -1 := by
  induction s with
  | nil => rfl
  | cons c rest ih =>
    rw [pyFind]
    rw [if_neg (fun hc : c = ch => h (hc ▸ List.mem_cons_self c rest))]
    rw [ih (fun hm => h (List.mem_cons_of_mem c hm))]
    norm_num

theorem pyFind_append (ch : Char) (x r : List Char) (h : ∀ c ∈ x, c ≠ ch) :
    pyFind ch (x ++ ch :: r) = (x.length : Int) := by
  induction x with
  | nil =>
    rw [List.nil_append, pyFind, if_pos rfl]
    rfl
  | cons c x2 ih =>
    rw [List.cons_append, pyFind]
    rw [if_neg (fun hc : c = ch => h c (List.mem_cons_self c x2) hc)]
    rw [ih (fun d hd => h d (List.mem_cons_of_mem c hd))]
    rw [if_neg (by omega : ¬ (x2.length : Int) < 0)]
    simp

theorem pyFind_mem_nonneg (ch : Char) (s : List Char) (h : ch ∈ s) :
    0 ≤ pyFind ch s := by
  induction s with
  | nil => exact absurd h (List.not_mem_nil ch)
  | cons c rest ih =>
    rw [pyFind]
    by_cases hc : c = ch
    · rw [if_pos hc]
    · rw [if_neg hc]
      have hm : ch ∈ rest := by
        rcases List.mem_cons.1 h with h1 | h2
        · exact absurd h1.symm hc
        · exact h2
      rw [if_neg (not_lt.2 (ih hm))]
      have := ih hm
      omega

theorem pyFind_pos_iff (ch : Char) (s : List Char) :
    pyFind ch s > 0 ↔ (ch ∈ s ∧ s.head? ≠ some ch) := by
  cases s with
  | nil => simp [pyFind]
  | cons c rest =>
    rw [pyFind]
    by_cases hc : c = ch
    · subst hc
      rw [if_pos rfl]
      simp
    · rw [if_neg hc]
      by_cases hm : ch ∈ rest
      · have h0 := pyFind_mem_nonneg ch rest hm
        rw [if_neg (not_lt.2 h0)]
        simp only [List.head?_cons, ne_eq, Option.some.injEq]
        constructor
        · intro _
          exact ⟨List.mem_cons_of_mem c hm, hc⟩
        · intro _
          omega
      · rw [pyFind_not_mem ch rest hm]
        norm_num
        intro habs
        rcases habs with h1 | h2
        · exact h1.symm
        · exact absurd h2 hm

/-! ## Round-trip lemmas -/

theorem verPart_no_plus (a b c : Int) :
    ∀ ch ∈ pyIntRepr a ++ '.' :: (pyIntRepr b ++ '.' :: pyIntRepr c), ch ≠ '+' := by
  intro ch hch
  simp only [List.mem_append, List.mem_cons] at hch
  rcases hch with h | rfl | h | rfl | h
  · exact pyIntRepr_not_plus a ch h
  · decide
  · exact pyIntRepr_not_plus b ch h
  · decide
  · exact pyIntRepr_not_plus c ch h

theorem verPart_split (a b c : Int) :
    pySplit '.' (pyIntRepr a ++ '.' :: (pyIntRepr b ++ '.' :: pyIntRepr c)) =
      [pyIntRepr a, pyIntRepr b, pyIntRepr c] := by
  rw [pySplit_append '.' (pyIntRepr a) _ (pyIntRepr_not_dot a)]
  rw [pySplit_append '.' (pyIntRepr b) _ (pyIntRepr_not_dot b)]
  rw [pySplit_no_sep '.' (pyIntRepr c) (pyIntRepr_not_dot c)]

theorem parse_format_unbuilt (a b c : Int) (ha : 0 ≤ a) (hb : 0 ≤ b) (hc : 0 ≤ c) :
    parseVersion (formatVersion (Version.unbuilt a b c)) = some (Version.unbuilt a b c) := by
  have hE : formatVersion (Version.unbuilt a b c) =
      pyIntRepr a ++ '.' :: (pyIntRepr b ++ '.' :: pyIntRepr c) := by
    simp [formatVersion, List.append_assoc]
  have hfind : pyFind '+' (pyIntRepr a ++ '.' :: (pyIntRepr b ++ '.' :: pyIntRepr c)) = -1 :=
    pyFind_not_mem '+' _ (fun hm => verPart_no_plus a b c '+' hm rfl)
  rw [hE]
  unfold parseVersion
  rw [hfind]
  rw [if_neg (by norm_num : ¬ (-1 : Int) > 0)]
  rw [verPart_split a b c]
  simp [pyInt_pyIntRepr a ha, pyInt_pyIntRepr b hb, pyInt_pyIntRepr c hc]

theorem parse_format_built (a b c d : Int) (ha : 0 ≤ a) (hb : 0 ≤ b) (hc : 0 ≤ c)
    (hd : 0 ≤ d) :
    parseVersion (formatVersion (Version.built a b c d)) = some (Version.built a b c d) := by
  have hE : formatVersion (Version.built a b c d) =
      (pyIntRepr a ++ '.' :: (pyIntRepr b ++ '.' :: pyIntRepr c)) ++ '+' :: pyIntRepr d := by
    simp [formatVersion, List.append_assoc]
  have hxlen : 0 < (pyIntRepr a ++ '.' :: (pyIntRepr b ++ '.' :: pyIntRepr c)).length := by
    simp [List.length_append]
  have hfind : pyFind '+'
      ((pyIntRepr a ++ '.' :: (pyIntRepr b ++ '.' :: pyIntRepr c)) ++ '+' :: pyIntRepr d) =
      ((pyIntRepr a ++ '.' :: (pyIntRepr b ++ '.' :: pyIntRepr c)).length : Int) :=
    pyFind_append '+' _ _ (verPart_no_plus a b c)
  have hsplitp : pySplit '+'
      ((pyIntRepr a ++ '.' :: (pyIntRepr b ++ '.' :: pyIntRepr c)) ++ '+' :: pyIntRepr d) =
      [pyIntRepr a ++ '.' :: (pyIntRepr b ++ '.' :: pyIntRepr c), pyIntRepr d] := by
    rw [pySplit_append '+' _ _ (verPart_no_plus a b c)]
    rw [pySplit_no_sep '+' (pyIntRepr d) (pyIntRepr_not_plus d)]
  rw [hE]
  unfold parseVersion
  rw [hfind]
  rw [if_pos (Int.natCast_pos.2 hxlen)]
  rw [hsplitp]
  simp [verPart_split a b c, pyInt_pyIntRepr a ha, pyInt_pyIntRepr b hb,
    pyInt_pyIntRepr c hc, pyInt_pyIntRepr d hd]

theorem pyIntRepr_one : pyIntRepr 1 = ['1'] := by
  rw [pyIntRepr_nonneg 1 (by norm_num), pyNatRepr_lt_ten _ (by norm_num)]
  decide

theorem pyIntRepr_zero : pyIntRepr 0 = ['0'] := by
  rw [pyIntRepr_nonneg 0 (by norm_num), pyNatRepr_lt_ten _ (by norm_num)]
  decide

/-! ## Claim theorems -/

/-- C1: the spec says a Build bump on an Unbuilt version fails with
`UnsupportedBumpError`, and the docstring of `set_bump_type` likewise
promises that "an error will occur later"; but the `match` in
`_get_next_version_without_build` has no `BUILD` case, so the code
silently returns the reformatted input.  Evaluating the embedded code at
the failing input: a Build bump of `"1.0.0"` succeeds and returns
`"1.0.0"` unchanged. -/
theorem build_bump_on_unbuilt_returns_input :
    getNextVersion ("1.0.0".data) VersionType.build = some ("1.0.0".data) := by
  have hp : parseVersion ("1.0.0".data) = some (Version.unbuilt 1 0 0) := by decide
  unfold getNextVersion
  rw [hp]
  show some (formatVersion (Version.unbuilt 1 0 0)) = some ("1.0.0".data)
  rw [formatVersion, pyIntRepr_one, pyIntRepr_zero]
  decide

/-- C2: for every Built version with non-negative components and positive
build, the bump produces exactly the table of the spec — Major, Minor and
Patch cascade the lower fields to zero and reset build to 1, Build
increments only the build counter. -/
theorem built_bump_table (a b c d : Int) (_ha : 0 ≤ a) (_hb : 0 ≤ b) (_hc : 0 ≤ c)
    (_hd : 0 < d) :
    bumpVersion (Version.built a b c d) VersionType.major = Version.built (a + 1) 0 0 1 ∧
    bumpVersion (Version.built a b c d) VersionType.minor = Version.built a (b + 1) 0 1 ∧
    bumpVersion (Version.built a b c d) VersionType.patch = Version.built a b (c + 1) 1 ∧
    bumpVersion (Version.built a b c d) VersionType.build = Version.built a b c (d + 1) :=
  ⟨rfl, rfl, rfl, rfl⟩

/-- Witness for C2 at the Built version 1.2.3+5. -/
theorem built_bump_table_example :
    (0 : Int) ≤ 1 ∧ (0 : Int) ≤ 2 ∧ (0 : Int) ≤ 3 ∧ (0 : Int) < 5 ∧
    (bumpVersion (Version.built 1 2 3 5) VersionType.major = Version.built 2 0 0 1 ∧
      bumpVersion (Version.built 1 2 3 5) VersionType.minor = Version.built 1 3 0 1 ∧
      bumpVersion (Version.built 1 2 3 5) VersionType.patch = Version.built 1 2 4 1 ∧
      bumpVersion (Version.built 1 2 3 5) VersionType.build = Version.built 1 2 3 6) :=
  ⟨by norm_num, by norm_num, by norm_num, by norm_num,
    by
      have h := built_bump_table 1 2 3 5 (by norm_num) (by norm_num) (by norm_num) (by norm_num)
      exact ⟨h.1, h.2.1, h.2.2.1.trans (by norm_num), h.2.2.2.trans (by norm_num)⟩⟩

/-- C3: for every Unbuilt version with non-negative components, the bump
produces exactly the spec's table — every strictly lower-order field is
reset to zero and the other fields are unchanged. -/
theorem unbuilt_bump_table (a b c : Int) (_ha : 0 ≤ a) (_hb : 0 ≤ b) (_hc : 0 ≤ c) :
    bumpVersion (Version.unbuilt a b c) VersionType.major = Version.unbuilt (a + 1) 0 0 ∧
    bumpVersion (Version.unbuilt a b c) VersionType.minor = Version.unbuilt a (b + 1) 0 ∧
    bumpVersion (Version.unbuilt a b c) VersionType.patch = Version.unbuilt a b (c + 1) :=
  ⟨rfl, rfl, rfl⟩

/-- Witness for C3 at the Unbuilt version 1.2.3. -/
theorem unbuilt_bump_table_example :
    (0 : Int) ≤ 1 ∧ (0 : Int) ≤ 2 ∧ (0 : Int) ≤ 3 ∧
    (bumpVersion (Version.unbuilt 1 2 3) VersionType.major = Version.unbuilt 2 0 0 ∧
      bumpVersion (Version.unbuilt 1 2 3) VersionType.minor = Version.unbuilt 1 3 0 ∧
      bumpVersion (Version.unbuilt 1 2 3) VersionType.patch = Version.unbuilt 1 2 4) :=
  ⟨by norm_num, by norm_num, by norm_num,
    by
      have h := unbuilt_bump_table 1 2 3 (by norm_num) (by norm_num) (by norm_num)
      exact ⟨h.1, h.2.1, h.2.2⟩⟩

/-- C5: round-trip — for every valid Version value (non-negative
components, positive build when present), parsing the serialized form
recovers the value exactly. -/
theorem parse_format_round_trip (v : Version) (hv : validVersion v = true) :
    parseVersion (formatVersion v) = some v := by
  cases v with
  | unbuilt a b c =>
    simp only [validVersion, Bool.and_eq_true, decide_eq_true_eq] at hv
    exact parse_format_unbuilt a b c hv.1.1 hv.1.2 hv.2
  | built a b c d =>
    simp only [validVersion, Bool.and_eq_true, decide_eq_true_eq] at hv
    exact parse_format_built a b c d hv.1.1.1 hv.1.1.2 hv.1.2 (le_of_lt hv.2)

/-- Witness for C5 at the Built version 1.2.3+5. -/
theorem parse_format_round_trip_example :
    validVersion (Version.built 1 2 3 5) = true ∧
    parseVersion (formatVersion (Version.built 1 2 3 5)) = some (Version.built 1 2 3 5) :=
  ⟨by decide, parse_format_round_trip (Version.built 1 2 3 5) (by decide)⟩

/-- C6 counterexample: the claim also asserts that no field ever
decreases, but a Patch bump of 1.2.3+5 resets the build counter from 5
down to 1; and a Build bump of the Unbuilt version 1.0.0 succeeds while
leaving every field unchanged, so the result is not strictly greater in
any field. -/
theorem bump_decreases_build_field :
    bumpVersion (Version.built 1 2 3 5) VersionType.patch = Version.built 1 2 4 1 ∧
    bumpVersion (Version.unbuilt 1 0 0) VersionType.build = Version.unbuilt 1 0 0 ∧
    verStrictSome (Version.unbuilt 1 0 0)
      (bumpVersion (Version.unbuilt 1 0 0) VersionType.build) = false := by
  decide

/-- C6 (amended): for every version and bump kind the resulting tuple is
lexicographically ≥ the input tuple, and it is strictly greater in at
least one field in every case except a Build bump of an Unbuilt version,
which returns the input unchanged; lower-order fields may decrease as
part of the cascade reset. -/
theorem bump_lex_monotone : ∀ (v : Version) (k : VersionType),
    verLexLE v (bumpVersion v k) = true ∧
    (verStrictSome v (bumpVersion v k) = true ∨
      (k = VersionType.build ∧ v.isBuilt = false ∧ bumpVersion v k = v)) := by
  intro v k
  cases v <;> cases k <;>
    simp [bumpVersion, applyBumpWith, applyBumpWithout, verLexLE, verStrictSome,
      Version.isBuilt, Bool.or_eq_true, Bool.and_eq_true, decide_eq_true_eq]

/-- C7: the bump preserves the version shape — the bump of an Unbuilt
version is Unbuilt and serializes with no `+`, the bump of a Built
version is Built and serializes with exactly one `+`. -/
theorem bump_shape_preservation : ∀ (v : Version) (k : VersionType),
    (bumpVersion v k).isBuilt = v.isBuilt ∧
    (formatVersion (bumpVersion v k)).count '+' = (if v.isBuilt then 1 else 0) := by
  have hz : ∀ i : Int, (pyIntRepr i).count '+' = 0 := fun i =>
    List.count_eq_zero.2 (fun hm => pyIntRepr_not_plus i '+' hm rfl)
  intro v k
  cases v <;> cases k <;>
    refine ⟨rfl, ?_⟩ <;>
    simp [formatVersion, bumpVersion, applyBumpWith, applyBumpWithout, Version.isBuilt,
      List.count_append, List.count_cons, hz]

/-- C9: `set_bump_type` accepts exactly the strings `"major"`,
`"minor"`, `"patch"` and `"build"`, selecting the corresponding bump
kind, and fails (raises) precisely on every other string. -/
theorem set_bump_type_spec :
    setBumpType ("major".data) = some VersionType.major ∧
    setBumpType ("minor".data) = some VersionType.minor ∧
    setBumpType ("patch".data) = some VersionType.patch ∧
    setBumpType ("build".data) = some VersionType.build ∧
    ∀ s : List Char, setBumpType s = none ↔
      (s ≠ ("major".data) ∧ s ≠ ("minor".data) ∧ s ≠ ("patch".data) ∧ s ≠ ("build".data)) := by
  refine ⟨by decide, by decide, by decide, by decide, ?_⟩
  intro s
  unfold setBumpType
  split_ifs with h1 h2 h3 h4 <;> simp_all

/-- C10: a Build bump of a string that parses as an Unbuilt version
succeeds and returns the reformatted input with no field incremented —
the `match` in `_get_next_version_without_build` has no `BUILD` case, so
the fields pass through unchanged. -/
theorem build_bump_unbuilt_identity (s : List Char) (a b c : Int)
    (h : parseVersion s = some (Version.unbuilt a b c)) :
    getNextVersion s VersionType.build = some (formatVersion (Version.unbuilt a b c)) := by
  unfold getNextVersion
  rw [h]
  rfl

/-- Witness for C10 at the input string 1.0.0. -/
theorem build_bump_unbuilt_identity_example :
    parseVersion ("1.0.0".data) = some (Version.unbuilt 1 0 0) ∧
    getNextVersion ("1.0.0".data) VersionType.build =
      some (formatVersion (Version.unbuilt 1 0 0)) :=
  ⟨by decide, build_bump_unbuilt_identity ("1.0.0".data) 1 0 0 (by decide)⟩

/-- Every successfully parsed version has the shape chosen by the
dispatch condition `find('+') > 0`. -/
theorem parseVersion_isBuilt (s : List Char) (v : Version)
    (h : parseVersion s = some v) : v.isBuilt = decide (pyFind '+' s > 0) := by
  unfold parseVersion at h
  by_cases hf : pyFind '+' s > 0
  · rw [if_pos hf] at h
    rw [decide_eq_true hf]
    cases hg : (pySplit '+' s).get? 1 with
    | none =>
      rw [hg] at h
      simp at h
    | some bs =>
      rw [hg] at h
      rcases hfld : pySplit '.' ((pySplit '+' s).getD 0 []) with
        _ | ⟨f1, _ | ⟨f2, _ | ⟨f3, _ | ⟨f4, rest⟩⟩⟩⟩
      · rw [hfld] at h; simp at h
      · rw [hfld] at h; simp at h
      · rw [hfld] at h; simp at h
      · rw [hfld] at h
        simp at h
        cases h1 : pyInt f1 <;> rw [h1] at h <;>
          cases h2 : pyInt f2 <;> rw [h2] at h <;>
          cases h3 : pyInt f3 <;> rw [h3] at h <;>
          cases h4 : pyInt bs <;> rw [h4] at h <;>
          simp at h <;> (subst h; rfl)
      · rw [hfld] at h; simp at h
  · rw [if_neg hf] at h
    rw [decide_eq_false hf]
    rcases hfld : pySplit '.' s with
      _ | ⟨f1, _ | ⟨f2, _ | ⟨f3, _ | ⟨f4, rest⟩⟩⟩⟩
    · rw [hfld] at h; simp at h
    · rw [hfld] at h; simp at h
    · rw [hfld] at h; simp at h
    · rw [hfld] at h
      simp at h
      cases h1 : pyInt f1 <;> rw [h1] at h <;>
        cases h2 : pyInt f2 <;> rw [h2] at h <;>
        cases h3 : pyInt f3 <;> rw [h3] at h <;>
        simp at h <;> (subst h; rfl)
    · rw [hfld] at h; simp at h

/-- C8 counterexample: the input whose first character is `+` contains a
`+` but `find('+')` returns 0, which fails the `> 0` dispatch test, so
the text is processed on the no-build path and parses as an Unbuilt
version (Python's `int` accepts the leading `+` sign on the first
field). -/
theorem leading_plus_not_built :
    ('+' ∈ ("+1.2.3".data)) ∧ pyFind '+' ("+1.2.3".data) = 0 ∧
    parseVersion ("+1.2.3".data) = some (Version.unbuilt 1 2 3) := by
  decide

/-- C8 (amended): parse treats the text as Built exactly when `+` occurs
at a strictly positive index — that is, the text contains `+` and does
not start with `+`; a text whose first character is `+` is processed on
the no-build path.  The dispatch condition is characterized, and every
successfully parsed value's shape follows it. -/
theorem built_dispatch_characterization : ∀ s : List Char,
    (pyFind '+' s > 0 ↔ ('+' ∈ s ∧ s.head? ≠ some '+')) ∧
    (parseVersion s).map Version.isBuilt =
      (parseVersion s).map (fun _ => decide ('+' ∈ s ∧ s.head? ≠ some '+')) := by
  intro s
  refine ⟨pyFind_pos_iff '+' s, ?_⟩
  cases hp : parseVersion s with
  | none => rfl
  | some v =>
    simp only [Option.map_some']
    rw [parseVersion_isBuilt s v hp]
    exact congrArg some (decide_eq_decide.2 (pyFind_pos_iff '+' s))

/-- If the separator occurs in the string, splitting produces at least
two pieces. -/
theorem two_le_pySplit (sep : Char) (s : List Char) (h : sep ∈ s) :
    2 ≤ (pySplit sep s).length := by
  induction s with
  | nil => exact absurd h (List.not_mem_nil sep)
  | cons c rest ih =>
    rw [pySplit]
    cases hps : pySplit sep rest with
    | nil => exact absurd hps (pySplit_ne_nil sep rest)
    | cons hh tt =>
      by_cases hcs : c = sep
      · simp [hcs]
      · have hm : sep ∈ rest := by
          rcases List.mem_cons.1 h with h1 | h2
          · exact absurd h1.symm hcs
          · exact h2
        have h2 := ih hm
        rw [hps] at h2
        simp only [List.length_cons] at h2
        simp [hcs]
        omega

/-- C4 counterexample: an input with three `+`-separated segments parses
successfully — the code reads only `split("+")[0]` and `split("+")[1]`
and never checks how many segments the `+`-split produced, so
`"1.2.3+4+5"` is accepted (as 1.2.3 with build 4) instead of failing. -/
theorem extra_plus_segments_accepted :
    parseVersion ("1.2.3+4+5".data) = some (Version.built 1 2 3 4) := by
  decide

/-- C4 (amended): parse fails exactly when the dot-split of the selected
version part does not yield three fields or one of the fields the code
reads (the first two `+`-segments only) fails Python's `int(...)`
conversion; `int(...)` accepts signs, surrounding whitespace and digit
grouping underscores, so extra `+`-segments beyond the second are
ignored and negative fields are accepted.  The four malformed inputs
listed by the spec do all fail. -/
theorem parse_failure_characterization :
    (∀ s : List Char, parseVersion s = none ↔ parseRejects s = true) ∧
    parseVersion ("1.2".data) = none ∧ parseVersion ("1.2.x".data) = none ∧
    parseVersion ("1.2.3+".data) = none ∧ parseVersion ("".data) = none := by
  refine ⟨?_, by decide, by decide, by decide, by decide⟩
  intro s
  by_cases hf : pyFind '+' s > 0
  · have hmem : '+' ∈ s := ((pyFind_pos_iff '+' s).1 hf).1
    have hlen2 : 2 ≤ (pySplit '+' s).length := two_le_pySplit '+' s hmem
    obtain ⟨bs, hbs⟩ : ∃ bs, (pySplit '+' s).get? 1 = some bs := by
      cases hg : (pySplit '+' s).get? 1 with
      | none => exact absurd (List.get?_eq_none.1 hg) (by omega)
      | some x => exact ⟨x, rfl⟩
    have hbd : (pySplit '+' s).getD 1 [] = bs := by
      rw [List.getD_eq_getD_get?, hbs]
      rfl
    unfold parseVersion parseRejects
    rw [if_pos hf, if_pos hf, hbs, hbd]
    rcases hfld : pySplit '.' ((pySplit '+' s).getD 0 []) with
      _ | ⟨f1, _ | ⟨f2, _ | ⟨f3, _ | ⟨f4, rest⟩⟩⟩⟩
    · simp
    · simp
    · simp
    · cases h1 : pyInt f1 <;> cases h2 : pyInt f2 <;> cases h3 : pyInt f3 <;>
        cases h4 : pyInt bs <;> simp [h1, h2, h3, h4]
    · simp
  · unfold parseVersion parseRejects
    rw [if_neg hf, if_neg hf]
    rcases hfld : pySplit '.' s with
      _ | ⟨f1, _ | ⟨f2, _ | ⟨f3, _ | ⟨f4, rest⟩⟩⟩⟩
    · simp
    · simp
    · simp
    · cases h1 : pyInt f1 <;> cases h2 : pyInt f2 <;> cases h3 : pyInt f3 <;>
        simp [h1, h2, h3]
    · simp

end BumpVersion
